import Mathlib

/-!
Shallow embedding of `transmissionscripts/__init__.py` (the rule-evaluation
and retirement engine of the transmission_scripts repository).

Modelling choices:
* Python strings are handled at the level of their Unicode code points
  (`List Nat`); the strings the scripts lowercase or compare are ASCII.
* Python floats (`ratio`, `max_ratio`) are modelled as exact rationals; the
  integer values in `CONFIG_RULES` are the exact results Python computes for
  the built-in configuration (for example `int((3600 * 24 * 30) * 1.1) = 2851200`).
* The RPC client is modelled by the list of torrents it reports plus a
  failure oracle (`Env`) telling which `stop_torrent` / `remove_torrent`
  calls raise; an uncaught exception aborts the enclosing sweep loop, which
  is what the source's bare `for` loops do.
-/

/-- Code points of a string. -/
def strCodes (s : String) : List Nat := s.data.map Char.toNat

/-- Python `str.lower` on a single code point, restricted to ASCII (the
strings the scripts lowercase - announce URLs and error messages - are ASCII). -/
def lowerCode (n : Nat) : Nat := if 65 ≤ n ∧ n ≤ 90 then n + 32 else n

/-- Python `str.lower` over the code points of a string. -/
def pyLower (l : List Nat) : List Nat := l.map lowerCode

/-- `listStarts needle hay` : `needle` is an initial block of `hay`. -/
def listStarts : List Nat → List Nat → Bool
  | [], _ => true
  | _ :: _, [] => false
  | a :: as, b :: bs => decide (a = b) && listStarts as bs

/-- Python's contiguous-substring test `needle in hay`. -/
def pyIn (needle : List Nat) : List Nat → Bool
  | [] => listStarts needle []
  | b :: rest => listStarts needle (b :: rest) || pyIn needle rest

/-- One tracker entry of a torrent (the scripts read `tracker['announce']`). -/
structure Tracker where
  announce : String
deriving DecidableEq

/-- The fields of a `transmissionrpc.Torrent` snapshot that the scripts read. -/
structure Torrent where
  hashString : String
  name : String
  status : String
  error : Int
  errorString : String
  ratio : Rat
  secondsSeeding : Nat
  trackers : List Tracker
deriving DecidableEq

/-- `REMOTE_MESSAGES`: the configured set of lowercased tracker messages that
mark a torrent as unregistered (a one-element Python set in the source). -/
def REMOTE_MESSAGES : List (List Nat) := [strCodes "unregistered torrent"]

/-- `LOCAL_ERRORS`: the configured set of lowercased local-error phrases
(a one-element Python set in the source). -/
def LOCAL_ERRORS : List (List Nat) := [strCodes "no data found"]

/-- `RULES_DEFAULT = 'DEFAULT'`, the key of the fallback rule set. -/
def RULES_DEFAULT : String := "DEFAULT"

/-- One rule set of `CONFIG['RULES']`: minimum seed time in seconds and
maximum ratio. -/
structure RuleSet where
  min_time : Nat
  max_ratio : Rat
deriving DecidableEq

/-- The built-in `CONFIG['RULES']` mapping, in insertion order (Python dicts
iterate in insertion order).  `min_time` values are the exact integers Python
produces: `int((3600*24*30)*1.1) = 2851200`, `int((3600*120.0)*1.1) = 475200`,
`int((3600*240)*1.1) = 950400`. -/
def CONFIG_RULES : List (String × RuleSet) :=
  [("apollo.rip/", ⟨2851200, 2⟩),
   ("landof.tv/", ⟨475200, 1⟩),
   (RULES_DEFAULT, ⟨950400, 2⟩)]

/-- The matcher inside `find_rule_set`: `key in tracker['announce'].lower()`.
Note that only the announce URL is lowercased, not the key. -/
def rule_matches (key announceURL : String) : Bool :=
  pyIn (strCodes key) (pyLower (strCodes announceURL))

/-- Modelled from the spec (4.2), for comparison with `rule_matches` : the matcher
as the spec words it, "case-insensitive substring containment", which
lowercases both arguments. -/
def rule_matches_spec (key announceURL : String) : Bool :=
  pyIn (pyLower (strCodes key)) (pyLower (strCodes announceURL))

/-- Inner loop of `find_rule_set`: does `key` match some tracker of the list? -/
def keyMatchesTrackers (key : String) (trackers : List Tracker) : Bool :=
  trackers.any fun tr => rule_matches key tr.announce

/-- Outer loop of `find_rule_set` over the rules mapping. -/
def find_rule_set_loop (trackers : List Tracker) : List (String × RuleSet) → Option RuleSet
  | [] => none
  | (k, rs) :: rest =>
    if keyMatchesTrackers k trackers then some rs else find_rule_set_loop trackers rest

/-- Python dict lookup `rules[key]`; `none` models the `KeyError` case. -/
def lookupRules : List (String × RuleSet) → String → Option RuleSet
  | [], _ => none
  | (k, rs) :: rest, key => if k = key then some rs else lookupRules rest key

/-- `find_rule_set(trackers)`: first rule whose key occurs in some lowercased
announce URL, else the `DEFAULT` entry (`none` models the `KeyError` raised
when the default key is absent from a loaded configuration). -/
def find_rule_set (rules : List (String × RuleSet)) (trackers : List Tracker) : Option RuleSet :=
  match find_rule_set_loop trackers rules with
  | some rs => some rs
  | none => lookupRules rules RULES_DEFAULT

/-- Modelled from the spec (4.1), for comparison with `find_rule_set` : the
same lookup but with the default key excluded from the matching loop. -/
def find_rule_set_excluding_default (rules : List (String × RuleSet))
    (trackers : List Tracker) : Option RuleSet :=
  match find_rule_set_loop trackers (rules.filter fun p => !(p.1 == RULES_DEFAULT)) with
  | some rs => some rs
  | none => lookupRules rules RULES_DEFAULT

/-- A mutating RPC call issued to the client. -/
inductive Call where
  | stop (hash : String)
  | remove (hash : String) (deleteData : Bool)
deriving DecidableEq

/-- The audit record printed by `remove_torrent`
(`Removed: name hash / Reason: reason`), together with the mode it ran in. -/
structure ActionRecord where
  name : String
  hashString : String
  reason : String
  dryRun : Bool
deriving DecidableEq

/-- Failure oracle for the client's two mutating calls: which hashes make
`stop_torrent` / `remove_torrent` raise a transport error. -/
structure Env where
  stop_fails : String → Bool
  remove_fails : String → Bool

/-- Outcome of processing one torrent (or one whole sweep): the calls issued,
the records printed, and `ok = false` when an exception escaped. -/
structure StepResult where
  calls : List Call
  records : List ActionRecord
  ok : Bool
deriving DecidableEq

/-- A loop iteration that does nothing. -/
def skipStep : StepResult := ⟨[], [], true⟩

/-- The client whose calls all succeed. -/
def noFailEnv : Env := ⟨fun _ => false, fun _ => false⟩

/-- `remove_torrent(client, torrent, reason="None", dry_run=False)`: stop the
torrent first unless already stopped, then remove it with `delete_data=False`,
then print the audit line.  In dry-run mode neither call is issued.  A raise
in either call aborts before the print. -/
def remove_torrent (env : Env) (t : Torrent) (reason : String) (dry_run : Bool) : StepResult :=
  let stopCalls : List Call :=
    if t.status ≠ "stopped" ∧ dry_run = false then [Call.stop t.hashString] else []
  if t.status ≠ "stopped" ∧ dry_run = false ∧ env.stop_fails t.hashString = true then
    ⟨stopCalls, [], false⟩
  else if dry_run = false ∧ env.remove_fails t.hashString = true then
    ⟨stopCalls ++ [Call.remove t.hashString false], [], false⟩
  else
    ⟨stopCalls ++ (if dry_run = false then [Call.remove t.hashString false] else []),
      [⟨t.name, t.hashString, reason, dry_run⟩], true⟩

/-- One `for torrent in client.get_torrents()` loop.  The bodies contain no
exception handler, so a raise in the body aborts the remaining iterations. -/
def sweep (step : Torrent → StepResult) : List Torrent → StepResult
  | [] => ⟨[], [], true⟩
  | t :: ts =>
    let r := step t
    if r.ok = true then
      let rest := sweep step ts
      ⟨r.calls ++ rest.calls, r.records ++ rest.records, rest.ok⟩
    else r

/-- Loop body of `remove_unknown_torrents`: `torrent.error >= 2 and
torrent.errorString.lower() in REMOTE_MESSAGES`. -/
def unknown_step (env : Env) (t : Torrent) : StepResult :=
  if t.error ≥ 2 ∧ pyLower (strCodes t.errorString) ∈ REMOTE_MESSAGES then
    remove_torrent env t "None" false
  else skipStep

/-- `remove_unknown_torrents(client)`. -/
def remove_unknown_torrents (env : Env) (torrents : List Torrent) : StepResult :=
  sweep (unknown_step env) torrents

/-- Inner `for errmsg in LOCAL_ERRORS` loop of `remove_local_errors`, with its
`break` after the first matching phrase. -/
def local_step_loop (env : Env) (t : Torrent) : List (List Nat) → StepResult
  | [] => skipStep
  | errmsg :: rest =>
    if pyIn errmsg (pyLower (strCodes t.errorString)) = true then
      remove_torrent env t "None" false
    else local_step_loop env t rest

/-- Loop body of `remove_local_errors`: only torrents with `error == 3`. -/
def local_step (env : Env) (t : Torrent) : StepResult :=
  if t.error = 3 then local_step_loop env t LOCAL_ERRORS else skipStep

/-- `remove_local_errors(client)`. -/
def remove_local_errors (env : Env) (torrents : List Torrent) : StepResult :=
  sweep (local_step env) torrents

/-- Loop body of `clean_min_time_ratio`: skip on any error or non-seeding
status, then test the ratio threshold and the seed-time threshold as two
independent `if` statements (no `elif` in the source).  The `none` branch of
the rule lookup models the `KeyError` a default-less configuration raises. -/
def clean_step (env : Env) (rules : List (String × RuleSet)) (t : Torrent) : StepResult :=
  if t.error ≠ 0 ∨ t.status ≠ "seeding" then skipStep
  else
    match find_rule_set rules t.trackers with
    | none => ⟨[], [], false⟩
    | some rule_set =>
      let r1 :=
        if t.ratio > rule_set.max_ratio then
          remove_torrent env t "max_ratio threshold passed" false
        else skipStep
      if r1.ok = true then
        let r2 :=
          if t.secondsSeeding > rule_set.min_time then
            remove_torrent env t "min_time threshold passed" false
          else skipStep
        ⟨r1.calls ++ r2.calls, r1.records ++ r2.records, r2.ok⟩
      else r1

/-- `clean_min_time_ratio(client)`. -/
def clean_min_time_ratio (env : Env) (rules : List (String × RuleSet))
    (torrents : List Torrent) : StepResult :=
  sweep (clean_step env rules) torrents

/-- Concatenation of a list of lists (used to state sweep results). -/
def catLists {α : Type} : List (List α) → List α
  | [] => []
  | l :: ls => l ++ catLists ls

/-- The qualifying condition of `remove_unknown_torrents`. -/
def unknownCond (t : Torrent) : Prop :=
  t.error ≥ 2 ∧ pyLower (strCodes t.errorString) ∈ REMOTE_MESSAGES

instance (t : Torrent) : Decidable (unknownCond t) := by
  unfold unknownCond; infer_instance

/-- The qualifying condition of `remove_local_errors`. -/
def localCond (t : Torrent) : Prop :=
  t.error = 3 ∧ ∃ m ∈ LOCAL_ERRORS, pyIn m (pyLower (strCodes t.errorString)) = true

instance (t : Torrent) : Decidable (localCond t) := by
  unfold localCond; infer_instance

/-- A seeding, error-free torrent that exceeds both thresholds of the
`landof.tv/` rule set (used as concrete input below). -/
def tBoth : Torrent :=
  { hashString := "hb", name := "tb", status := "seeding", error := 0,
    errorString := "", ratio := 3, secondsSeeding := 1000000,
    trackers := [⟨"http://landof.tv/ann?x=1"⟩] }

/-- A torrent the tracker reports as unregistered (hash `h0`). -/
def tUnreg0 : Torrent :=
  { hashString := "h0", name := "t0", status := "seeding", error := 2,
    errorString := "Unregistered Torrent", ratio := 5, secondsSeeding := 7,
    trackers := [] }

/-- A torrent the tracker reports as unregistered (hash `h1`). -/
def tUnreg1 : Torrent :=
  { hashString := "h1", name := "t1", status := "seeding", error := 2,
    errorString := "unregistered torrent", ratio := 0, secondsSeeding := 0,
    trackers := [] }

/-- A torrent the tracker reports as unregistered (hash `h2`). -/
def tUnreg2 : Torrent :=
  { hashString := "h2", name := "t2", status := "seeding", error := 2,
    errorString := "unregistered torrent", ratio := 0, secondsSeeding := 0,
    trackers := [] }

/-- A client whose `remove_torrent` call raises exactly on hash `h1`. -/
def envFailRemove1 : Env := ⟨fun _ => false, fun h => h == "h1"⟩

/-! ## Helper lemmas -/

theorem lowerCode_ne_68 (n : Nat) : lowerCode n ≠ 68 := by
  unfold lowerCode
  split
  · omega
  · next hn =>
      intro h
      exact hn ⟨by omega, by omega⟩

theorem pyIn_head_mem (c : Nat) (cs : List Nat) :
    ∀ hay : List Nat, pyIn (c :: cs) hay = true → c ∈ hay := by
  intro hay
  induction hay with
  | nil => intro h; simp [pyIn, listStarts] at h
  | cons b rest ih =>
      intro h
      simp only [pyIn, Bool.or_eq_true] at h
      rcases h with h | h
      · simp only [listStarts, Bool.and_eq_true, decide_eq_true_eq] at h
        exact h.1 ▸ List.mem_cons_self b rest
      · exact List.mem_cons_of_mem b (ih h)

theorem default_key_no_match (l : List Nat) :
    pyIn (strCodes RULES_DEFAULT) (pyLower l) = false := by
  have hcodes : strCodes RULES_DEFAULT = 68 :: [69, 70, 65, 85, 76, 84] := by decide
  rw [hcodes]
  cases hp : pyIn (68 :: [69, 70, 65, 85, 76, 84]) (pyLower l) with
  | false => rfl
  | true =>
      have h68 := pyIn_head_mem 68 [69, 70, 65, 85, 76, 84] (pyLower l) hp
      rcases List.mem_map.mp h68 with ⟨n, _, hn⟩
      exact absurd hn (lowerCode_ne_68 n)

theorem keyMatchesTrackers_default (trackers : List Tracker) :
    keyMatchesTrackers RULES_DEFAULT trackers = false := by
  unfold keyMatchesTrackers
  rw [List.any_eq_false]
  intro tr _
  unfold rule_matches
  rw [default_key_no_match]
  simp

theorem remove_torrent_noFail_run (t : Torrent) (reason : String) :
    remove_torrent noFailEnv t reason false =
      ⟨(if t.status ≠ "stopped" then [Call.stop t.hashString] else []) ++
        [Call.remove t.hashString false],
       [⟨t.name, t.hashString, reason, false⟩], true⟩ := by
  simp [remove_torrent, noFailEnv]

theorem remove_torrent_noFail_ok (t : Torrent) (reason : String) (dry_run : Bool) :
    (remove_torrent noFailEnv t reason dry_run).ok = true := by
  cases dry_run
  · rw [remove_torrent_noFail_run]
  · simp [remove_torrent, noFailEnv]

theorem remove_torrent_remove_mem (env : Env) (t : Torrent) (reason : String)
    (dry_run : Bool) (h : String) (d : Bool)
    (hm : Call.remove h d ∈ (remove_torrent env t reason dry_run).calls) :
    h = t.hashString ∧ d = false := by
  simp only [remove_torrent] at hm
  split at hm
  · split at hm <;> simp_all
  · split at hm
    · rw [List.mem_append] at hm
      rcases hm with hm | hm
      · split at hm <;> simp_all
      · simp_all
    · rw [List.mem_append] at hm
      rcases hm with hm | hm
      · split at hm <;> simp_all
      · split at hm <;> simp_all

theorem find_rule_set_loop_none (trackers : List Tracker) (rules : List (String × RuleSet))
    (h : ∀ p ∈ rules, keyMatchesTrackers p.1 trackers = false) :
    find_rule_set_loop trackers rules = none := by
  induction rules with
  | nil => rfl
  | cons p rest ih =>
      rcases p with ⟨k, r⟩
      have hk := h (k, r) (List.mem_cons_self _ _)
      simp only at hk
      simp [find_rule_set_loop, hk, ih fun q hq => h q (List.mem_cons_of_mem _ hq)]

theorem find_rule_set_loop_match (trackers : List Tracker) (rules : List (String × RuleSet))
    (h : ∃ p ∈ rules, keyMatchesTrackers p.1 trackers = true) :
    ∃ p ∈ rules, keyMatchesTrackers p.1 trackers = true ∧
      find_rule_set_loop trackers rules = some p.2 := by
  induction rules with
  | nil =>
      rcases h with ⟨p, hp, _⟩
      exact absurd hp (List.not_mem_nil p)
  | cons q rest ih =>
      rcases q with ⟨k, r⟩
      cases hk : keyMatchesTrackers k trackers with
      | true =>
          exact ⟨(k, r), List.mem_cons_self _ _, hk, by simp [find_rule_set_loop, hk]⟩
      | false =>
          have hrest : ∃ p ∈ rest, keyMatchesTrackers p.1 trackers = true := by
            rcases h with ⟨p, hp, hpm⟩
            rcases List.mem_cons.mp hp with rfl | hp2
            · simp only at hpm
              rw [hk] at hpm
              exact absurd hpm (by simp)
            · exact ⟨p, hp2, hpm⟩
          rcases ih hrest with ⟨p, hp, hpm, hloop⟩
          exact ⟨p, List.mem_cons_of_mem _ hp, hpm,
            by simp [find_rule_set_loop, hk, hloop]⟩

theorem sweep_of_ok (step : Torrent → StepResult) (ts : List Torrent)
    (h : ∀ t ∈ ts, (step t).ok = true) :
    sweep step ts =
      ⟨catLists (ts.map fun t => (step t).calls),
       catLists (ts.map fun t => (step t).records), true⟩ := by
  induction ts with
  | nil => rfl
  | cons t ts ih =>
      have h1 : (step t).ok = true := h t (List.mem_cons_self t ts)
      have h2 := ih fun u hu => h u (List.mem_cons_of_mem t hu)
      simp [sweep, h1, h2, catLists]

theorem remove_mem_remove_torrent_noFail_iff (t : Torrent) (reason : String)
    (h : String) (d : Bool) :
    Call.remove h d ∈ (remove_torrent noFailEnv t reason false).calls ↔
      h = t.hashString ∧ d = false := by
  rw [remove_torrent_noFail_run]
  constructor
  · intro hm
    rw [List.mem_append] at hm
    rcases hm with hm | hm
    · split at hm <;> simp_all
    · simp_all
  · rintro ⟨rfl, rfl⟩
    exact List.mem_append_right _ (by simp)

theorem unknown_step_eq (env : Env) (t : Torrent) :
    unknown_step env t =
      if unknownCond t then remove_torrent env t "None" false else skipStep := by
  unfold unknown_step
  by_cases h : unknownCond t
  · have h2 : t.error ≥ 2 ∧ pyLower (strCodes t.errorString) ∈ REMOTE_MESSAGES := h
    rw [if_pos h2, if_pos h]
  · have h2 : ¬(t.error ≥ 2 ∧ pyLower (strCodes t.errorString) ∈ REMOTE_MESSAGES) := h
    rw [if_neg h2, if_neg h]

theorem local_step_eq (env : Env) (t : Torrent) :
    local_step env t =
      if localCond t then remove_torrent env t "None" false else skipStep := by
  unfold local_step localCond LOCAL_ERRORS
  by_cases h1 : t.error = 3 <;>
    by_cases h2 : pyIn (strCodes "no data found") (pyLower (strCodes t.errorString)) = true <;>
    simp [local_step_loop, h1, h2]

theorem sweep_remove_mem_iff (cond : Torrent → Prop) [DecidablePred cond] (reason : String)
    (ts : List Torrent) (h : String) :
    (∃ d, Call.remove h d ∈
        (sweep (fun t => if cond t then remove_torrent noFailEnv t reason false else skipStep)
          ts).calls) ↔
      ∃ t ∈ ts, t.hashString = h ∧ cond t := by
  induction ts with
  | nil => simp [sweep]
  | cons t ts ih =>
      have hok : (if cond t then remove_torrent noFailEnv t reason false else skipStep).ok = true := by
        split
        · exact remove_torrent_noFail_ok t reason false
        · rfl
      have hstep : ∀ d : Bool,
          Call.remove h d ∈
            (if cond t then remove_torrent noFailEnv t reason false else skipStep).calls ↔
            (cond t ∧ h = t.hashString ∧ d = false) := by
        intro d
        by_cases hc : cond t
        · simp [hc, remove_mem_remove_torrent_noFail_iff]
        · simp [hc, skipStep]
      simp only [sweep, hok, if_true]
      constructor
      · rintro ⟨d, hd⟩
        rw [List.mem_append] at hd
        rcases hd with hd | hd
        · rcases (hstep d).mp hd with ⟨hc, rfl, rfl⟩
          exact ⟨t, List.mem_cons_self _ _, rfl, hc⟩
        · rcases ih.mp ⟨d, hd⟩ with ⟨u, hu, huh, huc⟩
          exact ⟨u, List.mem_cons_of_mem _ hu, huh, huc⟩
      · rintro ⟨u, hu, huh, huc⟩
        rcases List.mem_cons.mp hu with rfl | hu2
        · exact ⟨false, List.mem_append_left _ ((hstep false).mpr ⟨huc, huh.symm ▸ rfl, rfl⟩)⟩
        · rcases ih.mpr ⟨u, hu2, huh, huc⟩ with ⟨d, hd⟩
          exact ⟨d, List.mem_append_right _ hd⟩

theorem sweep_remove_records (cond : Torrent → Prop) [DecidablePred cond] (reason : String)
    (ts : List Torrent) :
    (sweep (fun t => if cond t then remove_torrent noFailEnv t reason false else skipStep)
        ts).records =
      (ts.filter fun t => decide (cond t)).map
        fun t => ⟨t.name, t.hashString, reason, false⟩ := by
  induction ts with
  | nil => rfl
  | cons t ts ih =>
      have hok : (if cond t then remove_torrent noFailEnv t reason false else skipStep).ok = true := by
        split
        · exact remove_torrent_noFail_ok t reason false
        · rfl
      simp only [sweep, hok, if_true]
      by_cases hc : cond t
      · rw [if_pos hc, remove_torrent_noFail_run, ih, List.filter_cons]
        simp [hc]
      · rw [if_neg hc, ih, List.filter_cons]
        simp [hc, skipStep]

theorem remove_unknown_as_cond (env : Env) (ts : List Torrent) :
    remove_unknown_torrents env ts =
      sweep (fun t => if unknownCond t then remove_torrent env t "None" false else skipStep) ts := by
  unfold remove_unknown_torrents
  congr 1


theorem remove_local_as_cond (env : Env) (ts : List Torrent) :
    remove_local_errors env ts =
      sweep (fun t => if localCond t then remove_torrent env t "None" false else skipStep) ts := by
  unfold remove_local_errors
  congr 1
  funext t
  exact local_step_eq env t


/-! ## Claim theorems -/

/-- C6: on every execution path of `remove_torrent`, any remove call issued to
the client passes `delete_data = False`, in dry-run and non-dry-run mode alike
and for every reason. -/
theorem remove_torrent_never_deletes_data (env : Env) (t : Torrent) (reason : String)
    (dry_run : Bool) (h : String) (d : Bool)
    (hm : Call.remove h d ∈ (remove_torrent env t reason dry_run).calls) : d = false :=
  (remove_torrent_remove_mem env t reason dry_run h d hm).2

theorem remove_torrent_never_deletes_data_witness :
    Call.remove "hb" false ∈ (remove_torrent noFailEnv tBoth "x" false).calls ∧ false = false :=
  ⟨by decide, remove_torrent_never_deletes_data noFailEnv tBoth "x" false "hb" false (by decide)⟩

/-- C7: for every torrent, reason and client state, `remove_torrent` with
`dry_run = True` issues no mutating call (no stop, no remove) and still emits
the audit record, carrying the dry-run flag. -/
theorem remove_torrent_dry_run_no_calls (env : Env) (t : Torrent) (reason : String) :
    remove_torrent env t reason true =
      ⟨[], [⟨t.name, t.hashString, reason, true⟩], true⟩ := by
  simp [remove_torrent]

/-- C8 counterexample: the matcher of `find_rule_set` is not case-insensitive
in its key argument: `'DEFAULT' in 'default'.lower()` is false although the
lowercased key is a substring of the lowercased URL, and lowercasing the key
changes the result. -/
theorem rule_matches_case_insensitive_cex :
    rule_matches "DEFAULT" "default" = false ∧
    pyIn (pyLower (strCodes "DEFAULT")) (pyLower (strCodes "default")) = true ∧
    rule_matches "default" "default" = true := by decide

/-- C8 amended: the matcher tests the raw key against the lowercased URL; it
is therefore invariant under case changes of the announce URL, and it agrees
with the spec's case-insensitive containment whenever the key is already
lowercase. -/
theorem rule_matches_amended :
    (∀ key u1 u2 : String, pyLower (strCodes u1) = pyLower (strCodes u2) →
      rule_matches key u1 = rule_matches key u2) ∧
    (∀ key url : String, pyLower (strCodes key) = strCodes key →
      rule_matches key url = rule_matches_spec key url) := by
  constructor
  · intro key u1 u2 h
    unfold rule_matches
    rw [h]
  · intro key url h
    unfold rule_matches rule_matches_spec
    rw [h]

theorem rule_matches_amended_witness :
    (pyLower (strCodes "Apollo.RIP/ann") = pyLower (strCodes "apollo.rip/ANN") ∧
      rule_matches "apollo.rip/" "Apollo.RIP/ann" = rule_matches "apollo.rip/" "apollo.rip/ANN") ∧
    (pyLower (strCodes "apollo.rip/") = strCodes "apollo.rip/" ∧
      rule_matches "apollo.rip/" "x.Apollo.RIP/y" = rule_matches_spec "apollo.rip/" "x.Apollo.RIP/y") :=
  ⟨⟨by decide, rule_matches_amended.1 "apollo.rip/" "Apollo.RIP/ann" "apollo.rip/ANN" (by decide)⟩,
   ⟨by decide, rule_matches_amended.2 "apollo.rip/" "x.Apollo.RIP/y" (by decide)⟩⟩

/-- C10: the default key `'DEFAULT'` is iterated over like any other key but
can never be selected by the matching loop, because a lowercased announce URL
never contains it; `find_rule_set` therefore behaves exactly as if the default
key were excluded from the loop, the default being reachable only through the
final fallback lookup. -/
theorem find_rule_set_default_only_fallback :
    (∀ l : List Nat, pyIn (strCodes RULES_DEFAULT) (pyLower l) = false) ∧
    (∀ (rules : List (String × RuleSet)) (trackers : List Tracker),
      find_rule_set rules trackers = find_rule_set_excluding_default rules trackers) := by
  constructor
  · exact default_key_no_match
  · intro rules trackers
    unfold find_rule_set find_rule_set_excluding_default
    have hloop : ∀ rs : List (String × RuleSet),
        find_rule_set_loop trackers rs =
          find_rule_set_loop trackers (rs.filter fun p => !(p.1 == RULES_DEFAULT)) := by
      intro rs
      induction rs with
      | nil => rfl
      | cons p rest ih =>
          rcases p with ⟨k, r⟩
          by_cases hk : k = RULES_DEFAULT
          · subst hk
            simp [find_rule_set_loop, List.filter_cons, keyMatchesTrackers_default, ih]
          · simp [find_rule_set_loop, List.filter_cons, hk, ih]
    rw [hloop rules]

/-- C5: `find_rule_set` implements the resolvePolicy contract: whenever the
rules mapping contains the default key it returns some rule set; if some
non-default key matches a lowercased announce URL it returns a matching
non-default key's rule set; if no key matches it returns the default. -/
theorem find_rule_set_resolves (rules : List (String × RuleSet)) (trackers : List Tracker)
    (d : RuleSet) (hdef : lookupRules rules RULES_DEFAULT = some d) :
    (∃ rs, find_rule_set rules trackers = some rs) ∧
    ((∃ p ∈ rules, p.1 ≠ RULES_DEFAULT ∧ keyMatchesTrackers p.1 trackers = true) →
      ∃ p ∈ rules, p.1 ≠ RULES_DEFAULT ∧ keyMatchesTrackers p.1 trackers = true ∧
        find_rule_set rules trackers = some p.2) ∧
    ((∀ p ∈ rules, keyMatchesTrackers p.1 trackers = false) →
      find_rule_set rules trackers = some d) := by
  refine ⟨?_, ?_, ?_⟩
  · cases hl : find_rule_set_loop trackers rules with
    | some rs => exact ⟨rs, by unfold find_rule_set; rw [hl]⟩
    | none => exact ⟨d, by unfold find_rule_set; rw [hl]; exact hdef⟩
  · intro hmatch
    have hmatch2 : ∃ p ∈ rules, keyMatchesTrackers p.1 trackers = true := by
      rcases hmatch with ⟨p, hp, _, hpm⟩
      exact ⟨p, hp, hpm⟩
    rcases find_rule_set_loop_match trackers rules hmatch2 with ⟨q, hq, hqm, hloop⟩
    refine ⟨q, hq, ?_, hqm, by unfold find_rule_set; rw [hloop]⟩
    intro hq1
    rw [hq1, keyMatchesTrackers_default] at hqm
    exact absurd hqm (by simp)
  · intro hnone
    have hl := find_rule_set_loop_none trackers rules hnone
    unfold find_rule_set
    rw [hl]
    exact hdef

theorem find_rule_set_resolves_witness :
    lookupRules CONFIG_RULES RULES_DEFAULT = some ⟨950400, 2⟩ ∧
    ((∃ rs, find_rule_set CONFIG_RULES [Tracker.mk "http://landof.tv/a"] = some rs) ∧
     ((∃ p ∈ CONFIG_RULES, p.1 ≠ RULES_DEFAULT ∧
         keyMatchesTrackers p.1 [Tracker.mk "http://landof.tv/a"] = true) →
       ∃ p ∈ CONFIG_RULES, p.1 ≠ RULES_DEFAULT ∧
         keyMatchesTrackers p.1 [Tracker.mk "http://landof.tv/a"] = true ∧
         find_rule_set CONFIG_RULES [Tracker.mk "http://landof.tv/a"] = some p.2) ∧
     ((∀ p ∈ CONFIG_RULES, keyMatchesTrackers p.1 [Tracker.mk "http://landof.tv/a"] = false) →
       find_rule_set CONFIG_RULES [Tracker.mk "http://landof.tv/a"] = some ⟨950400, 2⟩)) :=
  ⟨by decide,
   find_rule_set_resolves CONFIG_RULES [Tracker.mk "http://landof.tv/a"] ⟨950400, 2⟩ (by decide)⟩

/-- C2: `remove_unknown_torrents` removes a torrent if and only if its error
code is at least 2 and its lowercased error message is a member of
`REMOTE_MESSAGES`; the sweep prints exactly one record per qualifying torrent
(in particular the removal is independent of ratio and seeding time, which do
not occur in the condition). -/
theorem remove_unknown_torrents_iff (ts : List Torrent) :
    (∀ h : String,
      (∃ d, Call.remove h d ∈ (remove_unknown_torrents noFailEnv ts).calls) ↔
        ∃ t ∈ ts, t.hashString = h ∧
          t.error ≥ 2 ∧ pyLower (strCodes t.errorString) ∈ REMOTE_MESSAGES) ∧
    (remove_unknown_torrents noFailEnv ts).records =
      (ts.filter fun t => decide (unknownCond t)).map
        fun t => ⟨t.name, t.hashString, "None", false⟩ := by
  rw [remove_unknown_as_cond]
  exact ⟨fun h => sweep_remove_mem_iff unknownCond "None" ts h,
    sweep_remove_records unknownCond "None" ts⟩

/-- C3: `remove_local_errors` removes a torrent if and only if its error code
equals 3 and its lowercased error message contains a phrase of `LOCAL_ERRORS`;
the sweep prints exactly one record per qualifying torrent (the `break` after
the first matching phrase prevents duplicates). -/
theorem remove_local_errors_iff (ts : List Torrent) :
    (∀ h : String,
      (∃ d, Call.remove h d ∈ (remove_local_errors noFailEnv ts).calls) ↔
        ∃ t ∈ ts, t.hashString = h ∧ t.error = 3 ∧
          ∃ m ∈ LOCAL_ERRORS, pyIn m (pyLower (strCodes t.errorString)) = true) ∧
    (remove_local_errors noFailEnv ts).records =
      (ts.filter fun t => decide (localCond t)).map
        fun t => ⟨t.name, t.hashString, "None", false⟩ := by
  rw [remove_local_as_cond]
  exact ⟨fun h => sweep_remove_mem_iff localCond "None" ts h,
    sweep_remove_records localCond "None" ts⟩

theorem clean_step_calls_cases (env : Env) (rules : List (String × RuleSet)) (t : Torrent)
    (c : Call) (hm : c ∈ (clean_step env rules t).calls) :
    (t.error = 0 ∧ t.status = "seeding") ∧
      (c ∈ (remove_torrent env t "max_ratio threshold passed" false).calls ∨
       c ∈ (remove_torrent env t "min_time threshold passed" false).calls) := by
  simp only [clean_step] at hm
  split at hm
  · next h1 => simp [skipStep] at hm
  · next h1 =>
      push_neg at h1
      refine ⟨⟨h1.1, h1.2⟩, ?_⟩
      split at hm
      · simp at hm
      · next rs heq =>
          by_cases hr : t.ratio > rs.max_ratio
          · by_cases hs : t.secondsSeeding > rs.min_time
            · simp only [hr, hs, if_true] at hm
              split at hm
              · simp only [List.mem_append] at hm
                exact hm
              · exact Or.inl hm
            · simp only [hr, if_true, hs, if_false] at hm
              split at hm
              · simp [skipStep] at hm
                exact Or.inl hm
              · exact Or.inl hm
          · simp only [hr, if_false] at hm
            by_cases hs : t.secondsSeeding > rs.min_time
            · simp [skipStep, hs] at hm
              exact Or.inr hm
            · simp [skipStep, hs] at hm

/-- C4: `clean_min_time_ratio` issues removal actions only for torrents whose
error code is 0 and whose status is `"seeding"`; a downloading or error-state
torrent never yields a removal call, regardless of its ratio and seed time
(neither occurs in the conclusion). -/
theorem clean_only_error_free_seeding (env : Env) (rules : List (String × RuleSet))
    (ts : List Torrent) (h : String) (d : Bool)
    (hm : Call.remove h d ∈ (clean_min_time_ratio env rules ts).calls) :
    ∃ t ∈ ts, t.hashString = h ∧ t.error = 0 ∧ t.status = "seeding" := by
  induction ts with
  | nil => simp [clean_min_time_ratio, sweep] at hm
  | cons t ts ih =>
      have hstep : Call.remove h d ∈ (clean_step env rules t).calls →
          ∃ u ∈ t :: ts, u.hashString = h ∧ u.error = 0 ∧ u.status = "seeding" := by
        intro hc
        rcases clean_step_calls_cases env rules t _ hc with ⟨⟨he, hs⟩, hor⟩
        have hh : h = t.hashString := by
          rcases hor with hor | hor
          · exact (remove_torrent_remove_mem _ _ _ _ _ _ hor).1
          · exact (remove_torrent_remove_mem _ _ _ _ _ _ hor).1
        exact ⟨t, List.mem_cons_self _ _, hh.symm, he, hs⟩
      simp only [clean_min_time_ratio, sweep] at hm
      split at hm
      · simp only [List.mem_append] at hm
        rcases hm with hm | hm
        · exact hstep hm
        · rcases ih hm with ⟨u, hu, h1, h2, h3⟩
          exact ⟨u, List.mem_cons_of_mem _ hu, h1, h2, h3⟩
      · exact hstep hm

theorem clean_only_error_free_seeding_witness :
    Call.remove "hb" false ∈ (clean_min_time_ratio noFailEnv CONFIG_RULES [tBoth]).calls ∧
    ∃ t ∈ [tBoth], t.hashString = "hb" ∧ t.error = 0 ∧ t.status = "seeding" :=
  ⟨by decide,
   clean_only_error_free_seeding noFailEnv CONFIG_RULES [tBoth] "hb" false (by decide)⟩

/-- C1 counterexample: a seeding, error-free torrent exceeding both the ratio
and the seed-time threshold of its resolved rule set receives TWO removal
actions in a single sweep (one per threshold), not exactly one: the source
tests the two thresholds with independent `if` statements, no `elif`. -/
theorem clean_both_thresholds_cex :
    (clean_min_time_ratio noFailEnv CONFIG_RULES [tBoth]).records =
      [⟨"tb", "hb", "max_ratio threshold passed", false⟩,
       ⟨"tb", "hb", "min_time threshold passed", false⟩] ∧
    (clean_min_time_ratio noFailEnv CONFIG_RULES [tBoth]).records.length ≠ 1 := by decide

/-- C1 amended: a torrent with error code 0 and status seeding whose ratio
exceeds `max_ratio` AND whose seed time exceeds `min_time` gets exactly two
removal actions in a sweep, the ratio one first ("max_ratio threshold passed")
and the seed-time one second ("min_time threshold passed"): the seed-time rule
is evaluated independently of whether the ratio rule already fired. -/
theorem clean_both_thresholds_two_actions (rules : List (String × RuleSet)) (t : Torrent)
    (rs : RuleSet) (h0 : t.error = 0) (h1 : t.status = "seeding")
    (h2 : find_rule_set rules t.trackers = some rs)
    (h3 : t.ratio > rs.max_ratio) (h4 : t.secondsSeeding > rs.min_time) :
    (clean_min_time_ratio noFailEnv rules [t]).records =
      [⟨t.name, t.hashString, "max_ratio threshold passed", false⟩,
       ⟨t.name, t.hashString, "min_time threshold passed", false⟩] := by
  have hstep : clean_step noFailEnv rules t =
      ⟨(remove_torrent noFailEnv t "max_ratio threshold passed" false).calls ++
        (remove_torrent noFailEnv t "min_time threshold passed" false).calls,
       [⟨t.name, t.hashString, "max_ratio threshold passed", false⟩,
        ⟨t.name, t.hashString, "min_time threshold passed", false⟩], true⟩ := by
    simp only [clean_step, h0, h1, h2]
    simp [h3, h4, remove_torrent_noFail_run]
  simp [clean_min_time_ratio, sweep, hstep]

theorem clean_both_thresholds_two_actions_witness :
    tBoth.error = 0 ∧ tBoth.status = "seeding" ∧
    find_rule_set CONFIG_RULES tBoth.trackers = some ⟨475200, 1⟩ ∧
    tBoth.ratio > (475200, (1 : Rat)).2 ∧
    (clean_min_time_ratio noFailEnv CONFIG_RULES [tBoth]).records =
      [⟨tBoth.name, tBoth.hashString, "max_ratio threshold passed", false⟩,
       ⟨tBoth.name, tBoth.hashString, "min_time threshold passed", false⟩] :=
  ⟨by decide, by decide, by decide, by decide,
   clean_both_thresholds_two_actions CONFIG_RULES tBoth ⟨475200, 1⟩
     (by decide) (by decide) (by decide) (by decide) (by decide)⟩

/-- C9 counterexample: when the client's remove call fails for the first
qualifying torrent of `remove_unknown_torrents`, the whole sweep aborts: no
record is printed, and the second qualifying torrent (which a failure-free
sweep would remove) is never processed.  The source has no try/except. -/
theorem sweep_failure_aborts_cex :
    remove_unknown_torrents envFailRemove1 [tUnreg1, tUnreg2] =
      ⟨[Call.stop "h1", Call.remove "h1" false], [], false⟩ ∧
    Call.remove "h2" false ∉ (remove_unknown_torrents envFailRemove1 [tUnreg1, tUnreg2]).calls ∧
    (remove_unknown_torrents envFailRemove1 [tUnreg1, tUnreg2]).records = [] ∧
    Call.remove "h2" false ∈ (remove_unknown_torrents noFailEnv [tUnreg1, tUnreg2]).calls := by
  decide

/-- C9 amended: a failure of a stop or remove call aborts the ENTIRE sweep at
the failing torrent: the calls and records are exactly those of the torrents
before the failure plus the calls of the failing step, nothing is logged for
the failure, and no torrent after it is processed. -/
theorem sweep_failure_aborts (step : Torrent → StepResult) (pre : List Torrent)
    (t : Torrent) (post : List Torrent)
    (hpre : ∀ u ∈ pre, (step u).ok = true) (ht : (step t).ok = false) :
    sweep step (pre ++ t :: post) =
      ⟨catLists (pre.map fun u => (step u).calls) ++ (step t).calls,
       catLists (pre.map fun u => (step u).records) ++ (step t).records, false⟩ := by
  induction pre with
  | nil =>
      have hcond : ¬((step t).ok = true) := by rw [ht]; exact Bool.false_ne_true
      simp only [List.nil_append, List.map_nil, catLists, sweep]
      rw [if_neg hcond, ← ht]
  | cons u pre ih =>
      have hu : (step u).ok = true := hpre u (List.mem_cons_self _ _)
      have ih2 := ih fun v hv => hpre v (List.mem_cons_of_mem _ hv)
      simp [sweep, hu, ih2, catLists, List.append_assoc]

theorem sweep_failure_aborts_witness :
    (∀ u ∈ [tUnreg0], (unknown_step envFailRemove1 u).ok = true) ∧
    (unknown_step envFailRemove1 tUnreg1).ok = false ∧
    sweep (unknown_step envFailRemove1) ([tUnreg0] ++ tUnreg1 :: [tUnreg2]) =
      ⟨catLists ([tUnreg0].map fun u => (unknown_step envFailRemove1 u).calls) ++
        (unknown_step envFailRemove1 tUnreg1).calls,
       catLists ([tUnreg0].map fun u => (unknown_step envFailRemove1 u).records) ++
        (unknown_step envFailRemove1 tUnreg1).records, false⟩ :=
  ⟨by decide, by decide,
   sweep_failure_aborts (unknown_step envFailRemove1) [tUnreg0] tUnreg1 [tUnreg2]
     (by decide) (by decide)⟩
